import Mathlib

/-!
Shallow embedding of EmulationStation's theme loader (`src/ThemeData.cpp`,
`src/ThemeData.h`) and proofs about it.

The embedding models the XML data already parsed into a tree (pugixml's
`doc.load_file` succeeding), since file I/O and raw XML syntax are outside the
validation logic under study.  Machine floats (`mVersion : float`, `as_float`,
`atof`) are modelled over `ℚ`; every version / pair value appearing in the
claims (3, -404, 0.5, 0.25, ...) is exactly representable, so the comparisons
`mVersion == -404` and `mVersion < MINIMUM_THEME_VERSION` are faithful on the
inputs considered.
-/

namespace ThemeSpec

/-- Model of a pugixml element node: tag name, attributes, text content
(the concatenated pcdata; `""` models "no pcdata child", which is what makes
`xml_text::as_float` fall back to its default), and child elements. -/
inductive XmlNode where
  | mk (name : String) (attrs : List (String × String)) (text : String)
       (children : List XmlNode)

def XmlNode.name : XmlNode → String
  | .mk n _ _ _ => n

def XmlNode.attrs : XmlNode → List (String × String)
  | .mk _ a _ _ => a

def XmlNode.text : XmlNode → String
  | .mk _ _ t _ => t

def XmlNode.children : XmlNode → List XmlNode
  | .mk _ _ _ c => c

/-- `node.child(name)` / `doc.child(name)`: first child element with that
tag name. -/
def findNamed (l : List XmlNode) (n : String) : Option XmlNode :=
  l.find? (fun c => c.name = n)

def XmlNode.childNamed (node : XmlNode) (n : String) : Option XmlNode :=
  findNamed node.children n

/-- `node.attribute(a)`: the attribute's value if present. -/
def XmlNode.attr? (node : XmlNode) (a : String) : Option String :=
  (node.attrs.find? (fun p => p.1 = a)).map (fun p => p.2)

/-- `node.attribute(a).as_string()` with pugixml's `""` default. -/
def XmlNode.attrStr (node : XmlNode) (a : String) : String :=
  (node.attr? a).getD ""

/-- C `isspace` characters skipped by `strtod` / `atof`. -/
def isSpaceChar (c : Char) : Bool :=
  c = ' ' ∨ c = '\t' ∨ c = '\n' ∨ c = '\x0b' ∨ c = '\x0c' ∨ c = '\r'

def digitsToNat (ds : List Char) : Nat :=
  ds.foldl (fun a c => a * 10 + (c.toNat - 48)) 0

/-- Model of C `strtod` (as used by pugixml's `as_float` and by `atof`) on
decimal literals: skip leading whitespace, optional sign, integer digits,
optional fractional digits; any trailing garbage is ignored; if no digits were
consumed the result is 0.  (Exponent and hex-float forms are outside the
inputs this development evaluates on.) -/
def strtodChars (cs0 : List Char) : ℚ :=
  let cs := cs0.dropWhile isSpaceChar
  let signNeg : Bool := match cs with
    | '-' :: _ => true
    | _ => false
  let cs := match cs with
    | '-' :: r => r
    | '+' :: r => r
    | _ => cs
  let intPart := cs.takeWhile Char.isDigit
  let rest := cs.dropWhile Char.isDigit
  let fracPart : List Char := match rest with
    | '.' :: r => r.takeWhile Char.isDigit
    | _ => []
  if intPart = [] ∧ fracPart = [] then 0
  else
    let num : Nat := digitsToNat intPart * 10 ^ fracPart.length + digitsToNat fracPart
    let v : ℚ := mkRat (Int.ofNat num) (10 ^ fracPart.length)
    if signNeg then -v else v

def strtodQ (s : String) : ℚ := strtodChars s.toList

/-- `xml_text::as_float(def)`: the default when there is no pcdata, otherwise
the `strtod` of the text. -/
def textAsFloat (node : Option XmlNode) (dflt : ℚ) : ℚ :=
  match node with
  | none => dflt
  | some n => if n.text = "" then dflt else strtodQ n.text

/-- pugixml `as_bool` semantics on a non-empty value: first character one of
`1`, `t`, `T`, `y`, `Y`. -/
def boolOfText (s : String) : Bool :=
  match s.toList with
  | [] => false
  | c :: _ => c = '1' ∨ c = 't' ∨ c = 'T' ∨ c = 'y' ∨ c = 'Y'

/-- `node.attribute(a).as_bool(false)`. -/
def XmlNode.attrBool (node : XmlNode) (a : String) : Bool :=
  match node.attr? a with
  | none => false
  | some s => if s = "" then false else boolOfText s

/-- `ThemeData::ElementPropertyType` (ThemeData.h). -/
inductive ElementPropertyType where
  | NORMALIZED_PAIR
  | PATH
  | STRING
  | COLOR
  | FLOAT
  | BOOLEAN
  deriving DecidableEq, Repr

/-- The distinct validation failures raised as `ThemeException` by
`ThemeData.cpp`, identified by their message. -/
inductive ThemeError where
  | missingRoot
  | versionMissing
  | versionTooOld (required : ℚ) (actual : ℚ)
  | viewMissingName
  | elementMissingName (elemType : String)
  | unknownElementType (elemType : String)
  | unknownPropertyType (prop : String) (elemType : String)
  | invalidNormalizedPair (s : String)
  | emptyColor
  | invalidColorLength (s : String)
  deriving DecidableEq, Repr

/-- `boost::variant<Eigen::Vector2f, std::string, unsigned int, float, bool>`
(ThemeData.h line 74): the per-property tagged union. -/
inductive PropValue where
  | vec2 (x y : ℚ)
  | str (s : String)
  | uint (n : Nat)
  | flt (q : ℚ)
  | boolean (b : Bool)
  deriving DecidableEq, Repr

/-- Association-list model of `std::map` assignment `m[k] = v`:
replace the binding if the key is present, append otherwise. -/
def mapInsert {α : Type} : List (String × α) → String → α → List (String × α)
  | [], k, v => [(k, v)]
  | (k', v') :: rest, k, v =>
      if k' = k then (k, v) :: rest else (k', v') :: mapInsert rest k v

/-- Association-list model of `std::map` lookup. -/
def mapFind? {α : Type} : List (String × α) → String → Option α
  | [], _ => none
  | (k', v') :: rest, k => if k' = k then some v' else mapFind? rest k

/-- The `image` entry of `ThemeData::sElementMap` (ThemeData.cpp). -/
def imageMap : List (String × ElementPropertyType) :=
  [ ("pos", .NORMALIZED_PAIR), ("size", .NORMALIZED_PAIR),
    ("origin", .NORMALIZED_PAIR), ("path", .PATH), ("tile", .BOOLEAN) ]

/-- The `text` entry of `ThemeData::sElementMap`. -/
def textMap : List (String × ElementPropertyType) :=
  [ ("pos", .NORMALIZED_PAIR), ("size", .NORMALIZED_PAIR),
    ("text", .STRING), ("color", .COLOR), ("fontPath", .PATH),
    ("fontSize", .FLOAT), ("center", .BOOLEAN) ]

/-- The `textlist` entry of `ThemeData::sElementMap`. -/
def textlistMap : List (String × ElementPropertyType) :=
  [ ("pos", .NORMALIZED_PAIR), ("size", .NORMALIZED_PAIR),
    ("selectorColor", .COLOR), ("selectedColor", .COLOR),
    ("primaryColor", .COLOR), ("secondaryColor", .COLOR),
    ("fontPath", .PATH), ("fontSize", .FLOAT) ]

/-- The `sound` entry of `ThemeData::sElementMap`. -/
def soundMap : List (String × ElementPropertyType) := [ ("path", .PATH) ]

/-- `ThemeData::sElementMap` (ThemeData.cpp lines 10-35): the schema
registry. -/
def sElementMap : List (String × List (String × ElementPropertyType)) :=
  [ ("image", imageMap), ("text", textMap),
    ("textlist", textlistMap), ("sound", soundMap) ]

def MINIMUM_THEME_VERSION : ℚ := 3

/-- `ThemeData::ThemeElement` (ThemeData.h): `extra` flag plus the
property-name → tagged-value map. -/
structure ThemeElement where
  extra : Bool
  properties : List (String × PropValue)
  deriving DecidableEq, Repr

/-- `ThemeData::ThemeView`: element-name → element map (the lazily cached
"extras" vector is rendering state, outside this model). -/
structure ThemeView where
  elements : List (String × ThemeElement)
  deriving DecidableEq, Repr

/-- The loader's mutable state: `mVersion` and `mViews` (`mPath` is threaded
as an explicit argument where the source reads it). -/
structure ThemeState where
  version : ℚ
  views : List (String × ThemeView)
  deriving DecidableEq, Repr

/-- Hex-digit test for `operator>>(std::hex)`. -/
def isHexDigit (c : Char) : Bool :=
  (('0' ≤ c ∧ c ≤ '9') ∨ ('a' ≤ c ∧ c ≤ 'f') ∨ ('A' ≤ c ∧ c ≤ 'F'))

def hexDigitVal (c : Char) : Nat :=
  if '0' ≤ c ∧ c ≤ '9' then c.toNat - 48
  else if 'a' ≤ c ∧ c ≤ 'f' then c.toNat - 87
  else c.toNat - 55

def hexToNat (ds : List Char) : Nat :=
  ds.foldl (fun a c => a * 16 + hexDigitVal c) 0

/-- The optional `0x`/`0X` prefix accepted by hex extraction. -/
def stripHexPrefix (cs : List Char) : List Char :=
  match cs with
  | c1 :: c2 :: r => if c1 = '0' ∧ (c2 = 'x' ∨ c2 = 'X') then r else cs
  | _ => cs

/-- `ss >> std::hex >> val` on `unsigned int`: skip whitespace, optional
`0x`/`0X` prefix, then the longest hex-digit prefix; a failed extraction
leaves 0 (C++11 zero-on-failure).  For the lengths admitted by `getHexColor`
(≤ 8 digits) the value always fits in 32 bits, so no overflow clamping
arises. -/
def readHex (s : String) : Nat :=
  hexToNat ((stripHexPrefix (s.toList.dropWhile isSpaceChar)).takeWhile isHexDigit)

/-- `getHexColor` (ThemeData.cpp lines 117-136).  The `const char*` argument
is modelled as `Option String` so that the null-pointer branch is
representable. -/
def getHexColor (str : Option String) : Except ThemeError Nat :=
  match str with
  | none => .error .emptyColor
  | some s =>
      if s.length ≠ 6 ∧ s.length ≠ 8 then .error (.invalidColorLength s)
      else
        let val := readHex s
        .ok (if s.length = 6 then (val <<< 8) ||| 0xFF else val)

/-- Split a character list at every `/` (the generic-format separator). -/
def splitSlash : List Char → List (List Char)
  | [] => [[]]
  | c :: r =>
      match splitSlash r with
      | [] => [[]]
      | g :: gs => if c = '/' then [] :: g :: gs else (c :: g) :: gs

/-- `boost::filesystem::path::parent_path` on generic strings: the path
minus its last component. -/
def parentPath (p : String) : String :=
  let front := (splitSlash p.toList).dropLast
  if front = [[]] then "/" else String.mk (List.intercalate ['/'] front)

/-- `*boost::filesystem::path(s).begin()` for non-empty `s`: the root
directory if the path is absolute, otherwise the first path component. -/
def firstComponent (p : String) : String :=
  match p.toList with
  | '/' :: _ => "/"
  | cs => String.mk ((splitSlash cs).headD [])

/-- `boost::filesystem::operator/`: append with a separator unless one is
already present at the junction. -/
def pathAppend (a b : String) : String :=
  if b = "" then a
  else if a = "" then b
  else if a.toList.getLast? = some '/' ∨ b.toList.headD ' ' = '/' then a ++ b
  else a ++ "/" ++ b

/-- `resolvePath` (ThemeData.cpp lines 138-158).  `home` stands for the
external `getHomePath()` environment query; `relative` is the theme file's
path.  The null-`char*` branch coincides with the empty string here (the
coder always passes `as_string()`'s non-null result). -/
def resolvePath (home : String) (inStr : String) (relative : String) : String :=
  if inStr = "" then inStr
  else
    let relPath := parentPath relative
    if firstComponent inStr = "~" then home ++ inStr.drop 1
    else if firstComponent inStr = "." then pathAppend relPath (inStr.drop 1)
    else inStr

/-- The `getHomePath()` collaborator: an environment value external to the
parsing logic; its concrete content never matters to it. -/
def getHomePath : String := "/home/user"

/-- The `NORMALIZED_PAIR` coder (ThemeData.cpp lines 177-192): find the first
space; no space is an error; otherwise `substr(0, divider)` and
`substr(divider)` (the second part keeps the space, which `atof` skips) are
parsed permissively. -/
def parseNormalizedPair (s : String) : Except ThemeError (ℚ × ℚ) :=
  if ' ' ∈ s.toList then
    .ok (strtodChars (s.toList.takeWhile (fun c => c ≠ ' ')),
         strtodChars (s.toList.dropWhile (fun c => c ≠ ' ')))
  else .error (.invalidNormalizedPair s)

/-- The `switch(typeIt->second)` body of `parseElement` (ThemeData.cpp lines
175-215): one value coder per property type.  The PATH coder's
missing-file warning is logging only and does not affect the result. -/
def parsePropValue (themePath : String) (node : XmlNode)
    (t : ElementPropertyType) : Except ThemeError PropValue :=
  match t with
  | .NORMALIZED_PAIR =>
      (parseNormalizedPair node.text).map (fun p => .vec2 p.1 p.2)
  | .STRING => .ok (.str node.text)
  | .PATH => .ok (.str (resolvePath getHomePath node.text themePath))
  | .COLOR => (getHexColor (some node.text)).map .uint
  | .FLOAT => .ok (.flt (textAsFloat (some node) 0))
  | .BOOLEAN =>
      .ok (.boolean (if node.text = "" then false else boolOfText node.text))

def parseElementAux (themePath : String) (elemType : String)
    (typeMap : List (String × ElementPropertyType)) (acc : ThemeElement) :
    List XmlNode → Except ThemeError ThemeElement
  | [] => .ok acc
  | node :: rest =>
      match mapFind? typeMap node.name with
      | none => .error (.unknownPropertyType node.name elemType)
      | some t =>
          match parsePropValue themePath node t with
          | .error e => .error e
          | .ok v =>
              parseElementAux themePath elemType typeMap
                { acc with properties := mapInsert acc.properties node.name v }
                rest

/-- `ThemeData::parseElement` (ThemeData.cpp lines 161-219). -/
def parseElement (themePath : String) (root : XmlNode)
    (typeMap : List (String × ElementPropertyType)) :
    Except ThemeError ThemeElement :=
  parseElementAux themePath root.name typeMap
    { extra := root.attrBool "extra", properties := [] } root.children

def parseViewAux (themePath : String) (acc : ThemeView) :
    List XmlNode → Except ThemeError ThemeView
  | [] => .ok acc
  | node :: rest =>
      if (node.attr? "name").isNone then
        .error (.elementMissingName node.name)
      else
        match mapFind? sElementMap node.name with
        | none => .error (.unknownElementType node.name)
        | some typeMap =>
            match parseElement themePath node typeMap with
            | .error e => .error e
            | .ok elem =>
                parseViewAux themePath
                  { elements :=
                      mapInsert acc.elements (node.attrStr "name") elem }
                  rest

/-- `ThemeData::parseView` (ThemeData.cpp lines 94-115). -/
def parseView (themePath : String) (root : XmlNode) :
    Except ThemeError ThemeView :=
  parseViewAux themePath { elements := [] } root.children

/-- The view loop of `loadFile` (ThemeData.cpp lines 82-91), threading the
partially filled `mViews`: on a failure the views stored so far remain. -/
def loadViews (themePath : String) (acc : List (String × ThemeView)) :
    List XmlNode → List (String × ThemeView) × Option ThemeError
  | [] => (acc, none)
  | node :: rest =>
      if (node.attr? "name").isNone then (acc, some .viewMissingName)
      else
        match parseView themePath node with
        | .error e => (acc, some e)
        | .ok view =>
            loadViews themePath
              (if view.elements.length > 0 then
                mapInsert acc (node.attrStr "name") view
              else acc)
              rest

/-- The sibling chain `root.child("view")`, `next_sibling("view")`: the
children tagged `view`, in document order. -/
def viewNodes (root : XmlNode) : List XmlNode :=
  root.children.filter (fun c => c.name = "view")

/-- `ThemeData::loadFile` (ThemeData.cpp lines 50-92) from the point where
the document bytes parsed successfully (`fs::exists` and `doc.load_file` are
I/O preceding the validation under study; note the source clears
`mVersion`/`mViews` even before `doc.load_file` runs).  `prev` is the
object's state before the call; the returned state is its state after the
call, with `none` for normal return and `some e` for a thrown
`ThemeException`. -/
def loadFile (prev : ThemeState) (themePath : String) (doc : List XmlNode) :
    ThemeState × Option ThemeError :=
  -- lines 60-61: mVersion = 0; mViews.clear();  (prev is discarded here)
  let _ := prev
  match findNamed doc "theme" with
  | none => ({ version := 0, views := [] }, some .missingRoot)
  | some root =>
      let v := textAsFloat (root.childNamed "version") (-404)
      if v = -404 then
        ({ version := v, views := [] }, some .versionMissing)
      else if v < MINIMUM_THEME_VERSION then
        ({ version := v, views := [] },
         some (.versionTooOld MINIMUM_THEME_VERSION v))
      else
        let res := loadViews themePath [] (viewNodes root)
        ({ version := v, views := res.1 }, res.2)

/-- The variant alternative each schema `PropertyType` stores, per the
coders of `parseElement`: a geometry pair for `NORMALIZED_PAIR`, a string
for `PATH` and `STRING`, an unsigned integer for `COLOR`, a float for
`FLOAT`, a bool for `BOOLEAN`. -/
def tagMatches : PropValue → ElementPropertyType → Bool
  | .vec2 _ _, .NORMALIZED_PAIR => true
  | .str _, .PATH => true
  | .str _, .STRING => true
  | .uint _, .COLOR => true
  | .flt _, .FLOAT => true
  | .boolean _, .BOOLEAN => true
  | _, _ => false

/-! Concrete sample documents used to evaluate the theorems on closed
inputs. -/

def versionNode (t : String) : XmlNode := XmlNode.mk "version" [] t []

def doc404 : List XmlNode := [XmlNode.mk "theme" [] "" [versionNode "-404"]]

def docNoVersion : List XmlNode := [XmlNode.mk "theme" [] "" []]

def docV2 : List XmlNode := [XmlNode.mk "theme" [] "" [versionNode "2"]]

def logoElement : XmlNode :=
  XmlNode.mk "image" [("name", "logo")] ""
    [XmlNode.mk "pos" [] "0.5 0.25" [], XmlNode.mk "tile" [] "true" []]

def basicView : XmlNode := XmlNode.mk "view" [("name", "basic")] "" [logoElement]

def docV3 : List XmlNode :=
  [XmlNode.mk "theme" [] "" [versionNode "3", basicView]]

def emptyViewNode : XmlNode := XmlNode.mk "view" [("name", "basic")] "" []

def dupNameDoc : List XmlNode :=
  [XmlNode.mk "theme" [] "" [versionNode "3", basicView, emptyViewNode]]

def dupPosElement : XmlNode :=
  XmlNode.mk "image" [("name", "logo")] ""
    [XmlNode.mk "pos" [] "0.5 0.25" [], XmlNode.mk "pos" [] "0.3 0.4" []]

def badElemView : XmlNode :=
  XmlNode.mk "view" [("name", "v")] "" [XmlNode.mk "widget" [("name", "w")] "" []]

def badElemDoc : List XmlNode :=
  [XmlNode.mk "theme" [] "" [versionNode "3", badElemView]]

def badPropElement : XmlNode :=
  XmlNode.mk "sound" [("name", "s")] "" [XmlNode.mk "volume" [] "3" []]

def badPropView : XmlNode := XmlNode.mk "view" [("name", "v")] "" [badPropElement]

def badPropDoc : List XmlNode :=
  [XmlNode.mk "theme" [] "" [versionNode "3", badPropView]]

def sampleView : ThemeView :=
  { elements := [("logo", { extra := false, properties := [] })] }

def prevLoaded : ThemeState := { version := 3, views := [("menu", sampleView)] }

def noThemeDoc : List XmlNode := [XmlNode.mk "badroot" [] "" []]

/-! ### Helper lemmas -/

theorem mapFind?_insert {α : Type} (l : List (String × α)) (k n : String) (v : α) :
    mapFind? (mapInsert l k v) n = if n = k then some v else mapFind? l n := by
  induction l with
  | nil =>
      simp only [mapInsert, mapFind?]
      by_cases h : k = n
      · simp [h]
      · simp [h, Ne.symm h]
  | cons hd tl ih =>
      obtain ⟨k', v'⟩ := hd
      simp only [mapInsert]
      by_cases h1 : k' = k
      · subst h1
        simp only [if_pos rfl, mapFind?]
        by_cases h2 : k' = n
        · simp [h2]
        · simp [h2, Ne.symm h2]
      · simp only [if_neg h1, mapFind?]
        by_cases h2 : k' = n
        · have hnk : ¬(n = k) := fun hh => h1 (h2.trans hh)
          simp [h2, hnk]
        · simp [h2, ih]

theorem not_space_of_hex {c : Char} (h : isHexDigit c = true) :
    isSpaceChar c = false := by
  simp only [isSpaceChar, decide_eq_false_iff_not]
  rintro (rfl | rfl | rfl | rfl | rfl | rfl) <;> exact absurd h (by decide)

theorem stripHexPrefix_of_hex (cs : List Char)
    (h : ∀ c ∈ cs, isHexDigit c = true) : stripHexPrefix cs = cs := by
  cases cs with
  | nil => rfl
  | cons c1 rest =>
      cases rest with
      | nil => rfl
      | cons c2 r =>
          have h2 : isHexDigit c2 = true := h c2 (by simp)
          have hcond : ¬(c1 = '0' ∧ (c2 = 'x' ∨ c2 = 'X')) := by
            rintro ⟨-, rfl | rfl⟩ <;> exact absurd h2 (by decide)
          simp [stripHexPrefix, hcond]

theorem readHex_of_hex (s : String) (hne : s.toList ≠ [])
    (hhex : ∀ c ∈ s.toList, isHexDigit c = true) :
    readHex s = hexToNat s.toList := by
  unfold readHex
  have hdrop : s.toList.dropWhile isSpaceChar = s.toList := by
    cases hl : s.toList with
    | nil => simp
    | cons c r =>
        have hc : isHexDigit c = true := by
          apply hhex
          rw [hl]
          exact List.mem_cons_self c r
        simp [List.dropWhile_cons, not_space_of_hex hc]
  rw [hdrop, stripHexPrefix_of_hex _ hhex, List.takeWhile_eq_self_iff.mpr hhex]

theorem shiftLeft_or_FF_mod (x : Nat) : ((x <<< 8) ||| 0xFF) % 256 = 0xFF := by
  have h : ((x <<< 8) ||| 0xFF) % 2 ^ 8 = 0xFF := by
    apply Nat.eq_of_testBit_eq
    intro i
    simp only [Nat.testBit_mod_two_pow, Nat.testBit_or, Nat.testBit_shiftLeft]
    by_cases hi : i < 8
    · have h8 : ¬8 ≤ i := by omega
      simp [hi, h8]
    · have hlt : (0xFF : Nat) < 2 ^ i := by
        calc (0xFF : Nat) < 2 ^ 8 := by norm_num
          _ ≤ 2 ^ i := Nat.pow_le_pow_right (by norm_num) (by omega)
      simp [hi, Nat.testBit_lt_two_pow hlt]
  simpa using h

/-! ### Claims -/

/-- Claim C1.  The claim states that on any validation failure the previously
loaded state is untouched and that version/views are reset only after the
document-level checks pass.  The code does the opposite: `loadFile` clears
`mVersion`/`mViews` (lines 60-61) before even looking for the root tag, so a
load that fails on a missing `<theme>` tag has already destroyed the prior
state.  Evaluated here at such a failing input. -/
theorem loadFile_clears_state_before_validation :
    loadFile prevLoaded "/themes/a.xml" noThemeDoc
      = ({ version := 0, views := [] }, some ThemeError.missingRoot) ∧
    ({ version := 0, views := [] } : ThemeState) ≠ prevLoaded := by
  exact ⟨rfl, by decide⟩

/-- Claim C2 (amended): with a root theme tag, an absent `<version>` tag
fails with the version-missing error; a declared version `v < 3` with
`v ≠ -404` fails with the version-too-old error carrying the required and
actual versions; a declared version of exactly 3 succeeds whenever the view
parsing raises no error.  (The amendment excludes the sentinel `-404`,
see the counterexample.) -/
theorem loadFile_version_gate :
    (∀ (prev : ThemeState) (path : String) (doc : List XmlNode) (root : XmlNode),
      findNamed doc "theme" = some root →
      root.childNamed "version" = none →
      (loadFile prev path doc).2 = some ThemeError.versionMissing) ∧
    (∀ (prev : ThemeState) (path : String) (doc : List XmlNode) (root vn : XmlNode),
      findNamed doc "theme" = some root →
      root.childNamed "version" = some vn → vn.text ≠ "" →
      strtodQ vn.text < MINIMUM_THEME_VERSION → strtodQ vn.text ≠ -404 →
      (loadFile prev path doc).2
        = some (ThemeError.versionTooOld MINIMUM_THEME_VERSION (strtodQ vn.text))) ∧
    (∀ (prev : ThemeState) (path : String) (doc : List XmlNode) (root vn : XmlNode),
      findNamed doc "theme" = some root →
      root.childNamed "version" = some vn → vn.text ≠ "" →
      strtodQ vn.text = 3 →
      (loadViews path [] (viewNodes root)).2 = none →
      (loadFile prev path doc).2 = none) := by
  refine ⟨?_, ?_, ?_⟩
  · intro prev path doc root hroot hv
    simp [loadFile, hroot, textAsFloat, hv]
  · intro prev path doc root vn hroot hvn hne hlt hneq
    simp [loadFile, hroot, textAsFloat, hvn, hne, hneq, hlt]
  · intro prev path doc root vn hroot hvn hne h3 hviews
    have hne404 : ¬((3 : ℚ) = -404) := by norm_num
    have hnlt : ¬((3 : ℚ) < MINIMUM_THEME_VERSION) := by
      simp [MINIMUM_THEME_VERSION]
    simp [loadFile, hroot, textAsFloat, hvn, hne, h3, hne404, hnlt, hviews]

/-- The claim C2 predicts a version-too-old error for every declared version
below 3, but a document declaring version `-404` collides with the sentinel
`as_float` default and is reported as having no version tag at all. -/
theorem loadFile_version_gate_counterexample :
    strtodQ "-404" < MINIMUM_THEME_VERSION ∧
    (loadFile ⟨0, []⟩ "/t" doc404).2 = some ThemeError.versionMissing ∧
    (loadFile ⟨0, []⟩ "/t" doc404).2
      ≠ some (ThemeError.versionTooOld MINIMUM_THEME_VERSION (strtodQ "-404")) := by
  exact ⟨by decide, by decide, by decide⟩

/-- Witness for `loadFile_version_gate` at concrete documents: one without a
version tag, one declaring version 2, one declaring version 3 with a valid
view. -/
theorem loadFile_version_gate_witness :
    (loadFile ⟨0, []⟩ "/t" docNoVersion).2 = some ThemeError.versionMissing ∧
    (loadFile ⟨0, []⟩ "/t" docV2).2
      = some (ThemeError.versionTooOld MINIMUM_THEME_VERSION (strtodQ "2")) ∧
    (loadFile ⟨0, []⟩ "/t" docV3).2 = none := by
  refine ⟨?_, ?_, ?_⟩
  · exact loadFile_version_gate.1 ⟨0, []⟩ "/t" docNoVersion
      (XmlNode.mk "theme" [] "" []) rfl rfl
  · exact loadFile_version_gate.2.1 ⟨0, []⟩ "/t" docV2
      (XmlNode.mk "theme" [] "" [versionNode "2"]) (versionNode "2")
      rfl rfl (by decide) (by decide) (by decide)
  · exact loadFile_version_gate.2.2 ⟨0, []⟩ "/t" docV3
      (XmlNode.mk "theme" [] "" [versionNode "3", basicView]) (versionNode "3")
      rfl rfl (by decide) (by decide) (by decide)

/-- Claim C10: a document whose `<version>` tag is present and parses to the
float `-404` is (mis)reported with the version-tag-missing error, because the
code uses `-404` as the `as_float` default to detect an absent tag. -/
theorem loadFile_sentinel_collision (prev : ThemeState) (path : String)
    (doc : List XmlNode) (root vn : XmlNode)
    (hroot : findNamed doc "theme" = some root)
    (hvn : root.childNamed "version" = some vn)
    (hne : vn.text ≠ "")
    (hval : strtodQ vn.text = -404) :
    (loadFile prev path doc).2 = some ThemeError.versionMissing := by
  simp [loadFile, hroot, textAsFloat, hvn, hne, hval]

/-- Witness for `loadFile_sentinel_collision` at a concrete document
declaring `<version>-404</version>`. -/
theorem loadFile_sentinel_collision_witness :
    (loadFile ⟨0, []⟩ "/t" doc404).2 = some ThemeError.versionMissing :=
  loadFile_sentinel_collision ⟨0, []⟩ "/t" doc404
    (XmlNode.mk "theme" [] "" [versionNode "-404"]) (versionNode "-404")
    rfl rfl (by decide) (by decide)

/-- Claim C3: the color coder fails on a null token with the empty-color
error and on any token whose length is neither 6 nor 8 with the bad-length
error; a 6-hex-digit token decodes to its base-16 parse shifted left 8 bits
OR'd with `0xFF` (hence low byte `0xFF`); an 8-hex-digit token decodes to its
plain base-16 parse. -/
theorem getHexColor_spec :
    getHexColor none = Except.error ThemeError.emptyColor ∧
    (∀ s : String, s.length ≠ 6 → s.length ≠ 8 →
      getHexColor (some s) = Except.error (ThemeError.invalidColorLength s)) ∧
    (∀ s : String, s.length = 6 → (∀ c ∈ s.toList, isHexDigit c = true) →
      getHexColor (some s) = Except.ok ((hexToNat s.toList <<< 8) ||| 0xFF) ∧
      ((hexToNat s.toList <<< 8) ||| 0xFF) % 256 = 0xFF) ∧
    (∀ s : String, s.length = 8 → (∀ c ∈ s.toList, isHexDigit c = true) →
      getHexColor (some s) = Except.ok (hexToNat s.toList)) := by
  refine ⟨rfl, ?_, ?_, ?_⟩
  · intro s h6 h8
    simp [getHexColor, h6, h8]
  · intro s h6 hhex
    have hlist : s.toList.length = 6 := by
      cases s with
      | mk data => simpa [String.length] using h6
    have hne : s.toList ≠ [] := by
      intro hnil
      rw [hnil] at hlist
      simp at hlist
    refine ⟨?_, shiftLeft_or_FF_mod _⟩
    simp [getHexColor, h6, readHex_of_hex s hne hhex]
  · intro s h8 hhex
    have hlist : s.toList.length = 8 := by
      cases s with
      | mk data => simpa [String.length] using h8
    have hne : s.toList ≠ [] := by
      intro hnil
      rw [hnil] at hlist
      simp at hlist
    simp [getHexColor, h8, readHex_of_hex s hne hhex]

/-- Witness for `getHexColor_spec`: a 3-character token is rejected, a
6-digit token gets `0xFF` appended as its low byte, an 8-digit token parses
plainly. -/
theorem getHexColor_spec_witness :
    getHexColor (some "abc") = Except.error (ThemeError.invalidColorLength "abc") ∧
    (getHexColor (some "00ff00") = Except.ok ((hexToNat "00ff00".toList <<< 8) ||| 0xFF) ∧
      ((hexToNat "00ff00".toList <<< 8) ||| 0xFF) % 256 = 0xFF) ∧
    getHexColor (some "12345678") = Except.ok (hexToNat "12345678".toList) :=
  ⟨getHexColor_spec.2.1 "abc" (by decide) (by decide),
   getHexColor_spec.2.2.1 "00ff00" (by decide) (by decide),
   getHexColor_spec.2.2.2 "12345678" (by decide) (by decide)⟩

/-- Claim C4: a geometry-pair token without a space fails with the
invalid-normalized-pair error; with a space it is split at the first space
and both halves are parsed permissively (`atof` semantics, non-numeric
prefixes giving 0); `"0.5 0.25"` parses to `(0.5, 0.25)`. -/
theorem parseNormalizedPair_spec :
    (∀ s : String, ' ' ∉ s.toList →
      parseNormalizedPair s = Except.error (ThemeError.invalidNormalizedPair s)) ∧
    (∀ s : String, ' ' ∈ s.toList →
      parseNormalizedPair s =
        Except.ok (strtodChars (s.toList.takeWhile (fun c => c ≠ ' ')),
                   strtodChars (s.toList.dropWhile (fun c => c ≠ ' ')))) ∧
    parseNormalizedPair "0.5 0.25" = Except.ok (1/2, 1/4) ∧
    strtodQ "abc" = 0 := by
  refine ⟨?_, ?_, ?_, rfl⟩
  · intro s h
    simp only [String.toList] at h
    simp [parseNormalizedPair, String.toList, h]
  · intro s h
    simp only [String.toList] at h
    simp [parseNormalizedPair, String.toList, h]
  · have h : parseNormalizedPair "0.5 0.25"
        = Except.ok (mkRat 5 10, mkRat 25 100) := rfl
    rw [h]
    norm_num [Rat.mkRat_eq_div]

/-- Witness for `parseNormalizedPair_spec`: a token with the space deleted is
rejected; the split at the space is performed on `"0.5 0.25"`. -/
theorem parseNormalizedPair_spec_witness :
    parseNormalizedPair "0.50.25"
      = Except.error (ThemeError.invalidNormalizedPair "0.50.25") ∧
    parseNormalizedPair "0.5 0.25" =
      Except.ok (strtodChars ("0.5 0.25".toList.takeWhile (fun c => c ≠ ' ')),
                 strtodChars ("0.5 0.25".toList.dropWhile (fun c => c ≠ ' '))) :=
  ⟨parseNormalizedPair_spec.1 "0.50.25" (by decide),
   parseNormalizedPair_spec.2.1 "0.5 0.25" (by decide)⟩

/-- Claim C5: the path resolver returns an empty token unchanged; a token
whose first path component is literally `~` resolves to the home directory
plus the remainder after the leading character; one whose first component is
literally `.` resolves to the theme file's parent directory joined with the
remainder; every other token (including names merely starting with the
characters `~` or `.`, such as `.hidden`) is returned unchanged. -/
theorem resolvePath_spec :
    (∀ home rel : String, resolvePath home "" rel = "") ∧
    (∀ home tok rel : String, firstComponent tok = "~" →
      resolvePath home tok rel = home ++ tok.drop 1) ∧
    (∀ home tok rel : String, firstComponent tok = "." →
      resolvePath home tok rel = pathAppend (parentPath rel) (tok.drop 1)) ∧
    (∀ home tok rel : String, firstComponent tok ≠ "~" → firstComponent tok ≠ "." →
      resolvePath home tok rel = tok) := by
  refine ⟨?_, ?_, ?_, ?_⟩
  · intro home rel
    rfl
  · intro home tok rel h
    have hne : tok ≠ "" := by
      intro he
      subst he
      exact absurd h (by decide)
    simp [resolvePath, hne, h]
  · intro home tok rel h
    have hne : tok ≠ "" := by
      intro he
      subst he
      exact absurd h (by decide)
    have hns : firstComponent tok ≠ "~" := by
      rw [h]
      decide
    simp [resolvePath, hne, h, hns]
  · intro home tok rel h1 h2
    by_cases hne : tok = ""
    · subst hne
      rfl
    · simp [resolvePath, hne, h1, h2]

/-- Witness for `resolvePath_spec`: `./logo.png` joins onto the theme
directory, `~/x.cfg` joins onto the home directory, while `.hidden/x` and
`~screens/x` (whose first components are `.hidden` and `~screens`, not `.` or
`~`) are untouched. -/
theorem resolvePath_spec_witness :
    resolvePath "/home/u" "./logo.png" "/themes/my/theme.xml"
      = pathAppend (parentPath "/themes/my/theme.xml") ("./logo.png".drop 1) ∧
    resolvePath "/home/u" "./logo.png" "/themes/my/theme.xml"
      = "/themes/my/logo.png" ∧
    resolvePath "/home/u" "~/x.cfg" "/themes/my/theme.xml"
      = "/home/u" ++ "~/x.cfg".drop 1 ∧
    resolvePath "/home/u" ".hidden/x" "/themes/my/theme.xml" = ".hidden/x" ∧
    resolvePath "/home/u" "~screens/x" "/themes/my/theme.xml" = "~screens/x" :=
  ⟨resolvePath_spec.2.2.1 "/home/u" "./logo.png" "/themes/my/theme.xml" (by decide),
   by decide,
   resolvePath_spec.2.1 "/home/u" "~/x.cfg" "/themes/my/theme.xml" (by decide),
   resolvePath_spec.2.2.2 "/home/u" ".hidden/x" "/themes/my/theme.xml"
     (by decide) (by decide),
   resolvePath_spec.2.2.2 "/home/u" "~screens/x" "/themes/my/theme.xml"
     (by decide) (by decide)⟩

theorem parseElementAux_find_of_not_mem (themePath elemType : String)
    (typeMap : List (String × ElementPropertyType)) (l : List XmlNode)
    (acc e : ThemeElement) (pn : String)
    (h : parseElementAux themePath elemType typeMap acc l = Except.ok e)
    (hnone : l.filter (fun x => x.name = pn) = []) :
    mapFind? e.properties pn = mapFind? acc.properties pn := by
  induction l generalizing acc with
  | nil =>
      simp only [parseElementAux] at h
      cases h
      rfl
  | cons n rest ih =>
      simp only [parseElementAux] at h
      cases hfind : mapFind? typeMap n.name with
      | none => simp only [hfind] at h; cases h
      | some t =>
          simp only [hfind] at h
          cases hpv : parsePropValue themePath n t with
          | error err => simp only [hpv] at h; cases h
          | ok v =>
              simp only [hpv] at h
              by_cases hna : n.name = pn
              · simp [List.filter_cons, hna] at hnone
              · simp only [List.filter_cons, hna, decide_False, if_false] at hnone
                rw [ih _ h hnone]
                simp [mapFind?_insert, Ne.symm hna]

theorem parseElementAux_last_wins (themePath elemType : String)
    (typeMap : List (String × ElementPropertyType)) (l : List XmlNode)
    (acc e : ThemeElement) (pn : String) (c : XmlNode)
    (h : parseElementAux themePath elemType typeMap acc l = Except.ok e)
    (hlast : (l.filter (fun x => x.name = pn)).getLast? = some c) :
    ∃ t v, mapFind? typeMap pn = some t ∧
      parsePropValue themePath c t = Except.ok v ∧
      mapFind? e.properties pn = some v := by
  induction l generalizing acc with
  | nil => simp at hlast
  | cons n rest ih =>
      simp only [parseElementAux] at h
      cases hfind : mapFind? typeMap n.name with
      | none => simp only [hfind] at h; cases h
      | some t =>
          simp only [hfind] at h
          cases hpv : parsePropValue themePath n t with
          | error err => simp only [hpv] at h; cases h
          | ok v =>
              simp only [hpv] at h
              by_cases hna : n.name = pn
              · simp only [List.filter_cons, hna, decide_True, if_true] at hlast
                cases hrest : rest.filter (fun x => x.name = pn) with
                | nil =>
                    rw [hrest] at hlast
                    simp only [List.getLast?_singleton, Option.some.injEq] at hlast
                    subst hlast
                    refine ⟨t, v, by rw [← hna]; exact hfind, hpv, ?_⟩
                    rw [parseElementAux_find_of_not_mem _ _ _ _ _ _ _ h hrest]
                    simp [mapFind?_insert, hna]
                | cons f fs =>
                    rw [hrest] at hlast
                    rw [List.getLast?_cons_cons, ← hrest] at hlast
                    exact ih _ h hlast
              · simp only [List.filter_cons, hna, decide_False, if_false] at hlast
                exact ih _ h hlast

/-- Claim C8: within one element, a property stored under a name is always
the parse of the LAST child with that tag name in document order; duplicate
property children are not an error (the witness parses such an element
successfully). -/
theorem parseElement_last_wins (themePath : String) (root : XmlNode)
    (typeMap : List (String × ElementPropertyType)) (e : ThemeElement)
    (pn : String) (c : XmlNode)
    (h : parseElement themePath root typeMap = Except.ok e)
    (hlast : (root.children.filter (fun x => x.name = pn)).getLast? = some c) :
    ∃ t v, mapFind? typeMap pn = some t ∧
      parsePropValue themePath c t = Except.ok v ∧
      mapFind? e.properties pn = some v :=
  parseElementAux_last_wins themePath root.name typeMap root.children _ e pn c h hlast

/-- Witness for `parseElement_last_wins`: an `image` element with two `pos`
children parses successfully (no duplicate error) and stores the parse of the
second `pos` child. -/
theorem parseElement_last_wins_witness :
    parseElement "/t" dupPosElement imageMap = Except.ok
      ⟨false, [("pos", PropValue.vec2 (mkRat 3 10) (mkRat 4 10))]⟩ ∧
    ∃ t v, mapFind? imageMap "pos" = some t ∧
      parsePropValue "/t" (XmlNode.mk "pos" [] "0.3 0.4" []) t = Except.ok v ∧
      mapFind? (ThemeElement.mk false
        [("pos", PropValue.vec2 (mkRat 3 10) (mkRat 4 10))]).properties "pos"
        = some v :=
  ⟨rfl,
   parseElement_last_wins "/t" dupPosElement imageMap
     ⟨false, [("pos", PropValue.vec2 (mkRat 3 10) (mkRat 4 10))]⟩ "pos"
     (XmlNode.mk "pos" [] "0.3 0.4" []) rfl rfl⟩

theorem parsePropValue_tag (themePath : String) (node : XmlNode)
    (t : ElementPropertyType) (v : PropValue)
    (h : parsePropValue themePath node t = Except.ok v) : tagMatches v t = true := by
  cases t with
  | NORMALIZED_PAIR =>
      simp only [parsePropValue] at h
      cases hp : parseNormalizedPair node.text with
      | error err => rw [hp] at h; cases h
      | ok p => rw [hp] at h; cases h; rfl
  | STRING => cases h; rfl
  | PATH => cases h; rfl
  | COLOR =>
      simp only [parsePropValue] at h
      cases hp : getHexColor (some node.text) with
      | error err => rw [hp] at h; cases h
      | ok u => rw [hp] at h; cases h; rfl
  | FLOAT => cases h; rfl
  | BOOLEAN => cases h; rfl

theorem parseElementAux_tags (themePath elemType : String)
    (typeMap : List (String × ElementPropertyType)) (l : List XmlNode)
    (acc e : ThemeElement)
    (hacc : ∀ pn v, mapFind? acc.properties pn = some v →
      ∃ t, mapFind? typeMap pn = some t ∧ tagMatches v t = true)
    (h : parseElementAux themePath elemType typeMap acc l = Except.ok e) :
    ∀ pn v, mapFind? e.properties pn = some v →
      ∃ t, mapFind? typeMap pn = some t ∧ tagMatches v t = true := by
  induction l generalizing acc with
  | nil =>
      simp only [parseElementAux] at h
      cases h
      exact hacc
  | cons n rest ih =>
      simp only [parseElementAux] at h
      cases hfind : mapFind? typeMap n.name with
      | none => simp only [hfind] at h; cases h
      | some t =>
          simp only [hfind] at h
          cases hpv : parsePropValue themePath n t with
          | error err => simp only [hpv] at h; cases h
          | ok v' =>
              simp only [hpv] at h
              refine ih _ ?_ h
              intro pn v hfp
              rw [mapFind?_insert] at hfp
              by_cases hpn : pn = n.name
              · rw [if_pos hpn] at hfp
                cases hfp
                exact ⟨t, by rw [hpn]; exact hfind, parsePropValue_tag _ _ _ _ hpv⟩
              · rw [if_neg hpn] at hfp
                exact hacc pn v hfp

/-- Claim C9: every property value stored by a successful element parse has
the variant tag demanded by the `PropertyType` the Schema Registry declares
for that property name under the element's type. -/
theorem parseElement_tags_match_schema (themePath etName : String)
    (typeMap : List (String × ElementPropertyType)) (root : XmlNode)
    (e : ThemeElement)
    (hschema : mapFind? sElementMap etName = some typeMap)
    (h : parseElement themePath root typeMap = Except.ok e) :
    ∀ pn v, mapFind? e.properties pn = some v →
      ∃ t, mapFind? typeMap pn = some t ∧ tagMatches v t = true := by
  refine parseElementAux_tags themePath root.name typeMap root.children _ e ?_ h
  intro pn v hv
  simp [mapFind?] at hv

/-- Witness for `parseElement_tags_match_schema`: the `logo` image element's
stored `pos` value is a geometry pair, as `imageMap` declares. -/
theorem parseElement_tags_match_schema_witness :
    mapFind? sElementMap "image" = some imageMap ∧
    parseElement "/t" logoElement imageMap = Except.ok
      ⟨false, [("pos", PropValue.vec2 (mkRat 5 10) (mkRat 25 100)),
               ("tile", PropValue.boolean true)]⟩ ∧
    ∃ t, mapFind? imageMap "pos" = some t ∧
      tagMatches (PropValue.vec2 (mkRat 5 10) (mkRat 25 100)) t = true :=
  ⟨rfl, rfl,
   parseElement_tags_match_schema "/t" "image" imageMap logoElement
     ⟨false, [("pos", PropValue.vec2 (mkRat 5 10) (mkRat 25 100)),
              ("tile", PropValue.boolean true)]⟩ rfl rfl
     "pos" (PropValue.vec2 (mkRat 5 10) (mkRat 25 100)) rfl⟩

theorem parseElementAux_ok_props_known (themePath elemType : String)
    (typeMap : List (String × ElementPropertyType)) (l : List XmlNode)
    (acc e : ThemeElement)
    (h : parseElementAux themePath elemType typeMap acc l = Except.ok e) :
    ∀ c ∈ l, (mapFind? typeMap c.name).isSome = true := by
  induction l generalizing acc with
  | nil =>
      intro c hc
      cases hc
  | cons n rest ih =>
      simp only [parseElementAux] at h
      cases hfind : mapFind? typeMap n.name with
      | none => simp only [hfind] at h; cases h
      | some t =>
          simp only [hfind] at h
          cases hpv : parsePropValue themePath n t with
          | error err => simp only [hpv] at h; cases h
          | ok v =>
              simp only [hpv] at h
              intro c hc
              cases hc with
              | head => simp [hfind]
              | tail _ hmem => exact ih _ h c hmem

theorem parseViewAux_ok_elems_known (themePath : String) (l : List XmlNode)
    (acc v : ThemeView)
    (h : parseViewAux themePath acc l = Except.ok v) :
    ∀ c ∈ l, (c.attr? "name").isSome = true ∧
      ∃ tm, mapFind? sElementMap c.name = some tm ∧
        ∃ el, parseElement themePath c tm = Except.ok el := by
  induction l generalizing acc with
  | nil =>
      intro c hc
      cases hc
  | cons n rest ih =>
      simp only [parseViewAux] at h
      by_cases hattr : (n.attr? "name").isNone = true
      · rw [if_pos hattr] at h
        cases h
      · rw [if_neg hattr] at h
        cases hfind : mapFind? sElementMap n.name with
        | none => simp only [hfind] at h; cases h
        | some tm =>
            simp only [hfind] at h
            cases hpe : parseElement themePath n tm with
            | error err => simp only [hpe] at h; cases h
            | ok el =>
                simp only [hpe] at h
                intro c hc
                cases hc with
                | head =>
                    refine ⟨?_, tm, hfind, el, hpe⟩
                    cases hv : n.attr? "name" with
                    | none => rw [hv] at hattr; simp at hattr
                    | some s => simp
                | tail _ hmem => exact ih _ h c hmem

theorem loadViews_ok_views_known (themePath : String) (l : List XmlNode)
    (acc vs : List (String × ThemeView))
    (h : loadViews themePath acc l = (vs, none)) :
    ∀ n ∈ l, (n.attr? "name").isSome = true ∧
      ∃ v, parseView themePath n = Except.ok v := by
  induction l generalizing acc with
  | nil =>
      intro n hn
      cases hn
  | cons nd rest ih =>
      simp only [loadViews] at h
      by_cases hattr : (nd.attr? "name").isNone = true
      · rw [if_pos hattr] at h
        have h2 := congrArg Prod.snd h
        simp at h2
      · rw [if_neg hattr] at h
        cases hpv : parseView themePath nd with
        | error err =>
            simp only [hpv] at h
            have h2 := congrArg Prod.snd h
            simp at h2
        | ok view =>
            simp only [hpv] at h
            intro n hn
            cases hn with
            | head =>
                refine ⟨?_, view, hpv⟩
                cases hv : nd.attr? "name" with
                | none => rw [hv] at hattr; simp at hattr
                | some s => simp
            | tail _ hmem => exact ih _ h n hmem

/-- Claim C6: a view child whose tag is not in the Schema Registry, or a
property child whose tag is not in its element type's schema, makes the whole
load fail — no partial acceptance — and at the point of encounter the error
raised is precisely the unknown-element-type / unknown-property-type one. -/
theorem load_rejects_unknown_types :
    (∀ (prev : ThemeState) (path : String) (doc : List XmlNode) (root : XmlNode),
      findNamed doc "theme" = some root →
      (∃ vn ∈ viewNodes root, ∃ c ∈ vn.children,
        mapFind? sElementMap c.name = none) →
      (loadFile prev path doc).2 ≠ none) ∧
    (∀ (prev : ThemeState) (path : String) (doc : List XmlNode) (root : XmlNode),
      findNamed doc "theme" = some root →
      (∃ vn ∈ viewNodes root, ∃ c ∈ vn.children, ∃ tm,
        mapFind? sElementMap c.name = some tm ∧
        ∃ pc ∈ c.children, mapFind? tm pc.name = none) →
      (loadFile prev path doc).2 ≠ none) ∧
    (∀ (path : String) (acc : ThemeView) (c : XmlNode) (rest : List XmlNode),
      (c.attr? "name").isSome = true →
      mapFind? sElementMap c.name = none →
      parseViewAux path acc (c :: rest)
        = Except.error (ThemeError.unknownElementType c.name)) ∧
    (∀ (path elemType : String) (typeMap : List (String × ElementPropertyType))
      (acc : ThemeElement) (pc : XmlNode) (rest : List XmlNode),
      mapFind? typeMap pc.name = none →
      parseElementAux path elemType typeMap acc (pc :: rest)
        = Except.error (ThemeError.unknownPropertyType pc.name elemType)) := by
  refine ⟨?_, ?_, ?_, ?_⟩
  · intro prev path doc root hroot hbad hnone
    obtain ⟨vn, hvn, c, hc, hcnone⟩ := hbad
    by_cases h404 : textAsFloat (root.childNamed "version") (-404) = -404
    · simp [loadFile, hroot, h404] at hnone
    · by_cases hlt : textAsFloat (root.childNamed "version") (-404) < MINIMUM_THEME_VERSION
      · simp [loadFile, hroot, h404, hlt] at hnone
      · cases hlv : loadViews path [] (viewNodes root) with
        | mk vs err =>
            simp [loadFile, hroot, h404, hlt, hlv] at hnone
            subst hnone
            obtain ⟨-, vw, hpv⟩ :=
              loadViews_ok_views_known path (viewNodes root) [] vs hlv vn hvn
            obtain ⟨-, tm, htm, -⟩ :=
              parseViewAux_ok_elems_known path vn.children ⟨[]⟩ vw hpv c hc
            rw [htm] at hcnone
            cases hcnone
  · intro prev path doc root hroot hbad hnone
    obtain ⟨vn, hvn, c, hc, tm, htm, pc, hpc, hpcnone⟩ := hbad
    by_cases h404 : textAsFloat (root.childNamed "version") (-404) = -404
    · simp [loadFile, hroot, h404] at hnone
    · by_cases hlt : textAsFloat (root.childNamed "version") (-404) < MINIMUM_THEME_VERSION
      · simp [loadFile, hroot, h404, hlt] at hnone
      · cases hlv : loadViews path [] (viewNodes root) with
        | mk vs err =>
            simp [loadFile, hroot, h404, hlt, hlv] at hnone
            subst hnone
            obtain ⟨-, vw, hpv⟩ :=
              loadViews_ok_views_known path (viewNodes root) [] vs hlv vn hvn
            obtain ⟨-, tm', htm', el, hel⟩ :=
              parseViewAux_ok_elems_known path vn.children ⟨[]⟩ vw hpv c hc
            rw [htm] at htm'
            cases htm'
            have := parseElementAux_ok_props_known path c.name tm c.children
              ⟨c.attrBool "extra", []⟩ el hel pc hpc
            rw [hpcnone] at this
            cases this
  · intro path acc c rest hattr hcnone
    have hisno : (c.attr? "name").isNone = false := by
      cases hv : c.attr? "name" with
      | none => rw [hv] at hattr; cases hattr
      | some s => simp
    simp [parseViewAux, hisno, hcnone]
  · intro path elemType typeMap acc pc rest hpcnone
    simp [parseElementAux, hpcnone]

/-- Witness for `load_rejects_unknown_types`: a document with an unknown
`widget` element fails to load, a document with an unknown `volume` property
on a `sound` element fails to load, and the point errors are the
unknown-element-type and unknown-property-type ones. -/
theorem load_rejects_unknown_types_witness :
    (loadFile ⟨0, []⟩ "/t" badElemDoc).2 ≠ none ∧
    (loadFile ⟨0, []⟩ "/t" badPropDoc).2 ≠ none ∧
    parseViewAux "/t" ⟨[]⟩ [XmlNode.mk "widget" [("name", "w")] "" []]
      = Except.error (ThemeError.unknownElementType "widget") ∧
    parseElementAux "/t" "sound" soundMap ⟨false, []⟩
        [XmlNode.mk "volume" [] "3" []]
      = Except.error (ThemeError.unknownPropertyType "volume" "sound") := by
  refine ⟨?_, ?_, ?_, ?_⟩
  · exact load_rejects_unknown_types.1 ⟨0, []⟩ "/t" badElemDoc
      (XmlNode.mk "theme" [] "" [versionNode "3", badElemView]) rfl
      ⟨badElemView, List.mem_singleton_self _,
        XmlNode.mk "widget" [("name", "w")] "" [], List.mem_singleton_self _, rfl⟩
  · exact load_rejects_unknown_types.2.1 ⟨0, []⟩ "/t" badPropDoc
      (XmlNode.mk "theme" [] "" [versionNode "3", badPropView]) rfl
      ⟨badPropView, List.mem_singleton_self _, badPropElement,
        List.mem_singleton_self _, soundMap, rfl,
        XmlNode.mk "volume" [] "3" [], List.mem_singleton_self _, rfl⟩
  · exact load_rejects_unknown_types.2.2.1 "/t" ⟨[]⟩
      (XmlNode.mk "widget" [("name", "w")] "" []) [] (by decide) rfl
  · exact load_rejects_unknown_types.2.2.2 "/t" "sound" soundMap ⟨false, []⟩
      (XmlNode.mk "volume" [] "3" []) [] rfl

theorem loadViews_find_isSome (themePath : String) (l : List XmlNode)
    (acc vs : List (String × ThemeView))
    (h : loadViews themePath acc l = (vs, none)) (n : String) :
    (mapFind? vs n).isSome = true ↔
      ((mapFind? acc n).isSome = true ∨
        ∃ node ∈ l, node.attrStr "name" = n ∧
          ∃ v, parseView themePath node = Except.ok v ∧ v.elements ≠ []) := by
  induction l generalizing acc with
  | nil =>
      simp only [loadViews] at h
      cases h
      simp
  | cons nd rest ih =>
      simp only [loadViews] at h
      by_cases hattr : (nd.attr? "name").isNone = true
      · rw [if_pos hattr] at h
        have h2 := congrArg Prod.snd h
        simp at h2
      · rw [if_neg hattr] at h
        cases hpv : parseView themePath nd with
        | error err =>
            simp only [hpv] at h
            have h2 := congrArg Prod.snd h
            simp at h2
        | ok view =>
            simp only [hpv] at h
            by_cases hlen : view.elements.length > 0
            · rw [if_pos hlen] at h
              rw [ih _ h]
              constructor
              · rintro (hsome | hrest)
                · rw [mapFind?_insert] at hsome
                  by_cases heq : n = nd.attrStr "name"
                  · right
                    refine ⟨nd, List.mem_cons_self _ _, heq.symm, view, hpv, ?_⟩
                    intro hnil
                    rw [hnil] at hlen
                    simp at hlen
                  · rw [if_neg heq] at hsome
                    left
                    exact hsome
                · right
                  obtain ⟨node, hmem, hrest'⟩ := hrest
                  exact ⟨node, List.mem_cons_of_mem _ hmem, hrest'⟩
              · rintro (hacc | ⟨node, hmem, hname, v, hv, hvne⟩)
                · left
                  rw [mapFind?_insert]
                  by_cases heq : n = nd.attrStr "name"
                  · rw [if_pos heq]
                    simp
                  · rw [if_neg heq]
                    exact hacc
                · cases hmem with
                  | head =>
                      left
                      rw [mapFind?_insert, if_pos hname.symm]
                      simp
                  | tail _ hmem' =>
                      right
                      exact ⟨node, hmem', hname, v, hv, hvne⟩
            · rw [if_neg hlen] at h
              rw [ih _ h]
              constructor
              · rintro (hacc | hrest)
                · left
                  exact hacc
                · right
                  obtain ⟨node, hmem, hrest'⟩ := hrest
                  exact ⟨node, List.mem_cons_of_mem _ hmem, hrest'⟩
              · rintro (hacc | ⟨node, hmem, hname, v, hv, hvne⟩)
                · left
                  exact hacc
                · cases hmem with
                  | head =>
                      rw [hpv] at hv
                      cases hv
                      exfalso
                      apply hvne
                      cases hel : view.elements with
                      | nil => rfl
                      | cons a as =>
                          rw [hel] at hlen
                          simp at hlen
                  | tail _ hmem' =>
                      right
                      exact ⟨node, hmem', hname, v, hv, hvne⟩

/-- Claim C7 (amended): after a successful load, a view NAME appears in the
stored view mapping iff at least one `view` node carrying that name yielded a
non-empty element set.  In particular a view node with zero parsed elements
is never itself stored; but when two view nodes share a name, the name can
still appear because of the other node — which is what the counterexample
exhibits against the claim's per-node phrasing. -/
theorem loadFile_view_pruning (prev : ThemeState) (path : String)
    (doc : List XmlNode) (root : XmlNode) (st : ThemeState)
    (hroot : findNamed doc "theme" = some root)
    (h : loadFile prev path doc = (st, none)) (n : String) :
    (mapFind? st.views n).isSome = true ↔
      ∃ node ∈ viewNodes root, node.attrStr "name" = n ∧
        ∃ v, parseView path node = Except.ok v ∧ v.elements ≠ [] := by
  by_cases h404 : textAsFloat (root.childNamed "version") (-404) = -404
  · simp [loadFile, hroot, h404, Prod.ext_iff] at h
  · by_cases hlt : textAsFloat (root.childNamed "version") (-404)
        < MINIMUM_THEME_VERSION
    · simp [loadFile, hroot, h404, hlt, Prod.ext_iff] at h
    · cases hlv : loadViews path [] (viewNodes root) with
      | mk vs err =>
          simp [loadFile, hroot, h404, hlt, hlv, Prod.mk.injEq] at h
          obtain ⟨h1, h2⟩ := h
          subst h2
          subst h1
          have hiff := loadViews_find_isSome path (viewNodes root) [] vs hlv n
          simpa [mapFind?] using hiff

/-- The claim C7 as written (every view node appears in the mapping iff it
yielded at least one element) fails when two view nodes share a name: here
the second `basic` view node yields zero elements, yet the name `basic` is in
the mapping, put there by the first node. -/
theorem loadFile_view_pruning_counterexample :
    (loadFile ⟨0, []⟩ "/t" dupNameDoc).2 = none ∧
    parseView "/t" emptyViewNode = Except.ok ⟨[]⟩ ∧
    emptyViewNode.attrStr "name" = "basic" ∧
    (mapFind? (loadFile ⟨0, []⟩ "/t" dupNameDoc).1.views "basic").isSome = true := by
  exact ⟨by decide, rfl, rfl, by decide⟩

/-- Witness for `loadFile_view_pruning` at the concrete version-3 document
with one non-empty `basic` view. -/
theorem loadFile_view_pruning_witness :
    (mapFind? (loadFile ⟨0, []⟩ "/t" docV3).1.views "basic").isSome = true ↔
      ∃ node ∈ viewNodes (XmlNode.mk "theme" [] "" [versionNode "3", basicView]),
        node.attrStr "name" = "basic" ∧
        ∃ v, parseView "/t" node = Except.ok v ∧ v.elements ≠ [] :=
  loadFile_view_pruning ⟨0, []⟩ "/t" docV3
    (XmlNode.mk "theme" [] "" [versionNode "3", basicView])
    (loadFile ⟨0, []⟩ "/t" docV3).1 rfl
    (Prod.ext_iff.mpr ⟨rfl, by decide⟩) "basic"

end ThemeSpec
